/-
  Verification of the deepl-exporter collector (Go) against its
  natural-language specification, via a shallow embedding in Lean 4.

  Sources embedded:
    * the current collector (package file defining DeepLCollector,
      NewDeepLCollector, Describe, Collect, fetchUsage) — top level here;
    * the older single-file variant in main.go — namespace MainGo.

  Modelling conventions:
    * Go strings used as opaque byte/character sequences (the api_key) are
      `List Char`; human-readable text (URLs, bodies, log and error
      messages) stays `String`.  The key-suffix check slices the last three
      bytes; for the ASCII suffix ":fx" byte slicing and character slicing
      agree on well-formed UTF-8, so `List Char` is faithful.
    * Go float64 gauge values are modelled as exact rationals `ℚ`; the
      code's float arithmetic (int64→float64 conversion, division,
      multiplication by 100) is carried out exactly.
    * int64 JSON fields are `Int`; the int64 range check that
      encoding/json performs when decoding a numeric literal into an
      int64 field is modelled explicitly in `unmarshalInt64`.
    * The network is a function from the built HTTP request to a
      `TransportOutcome`: either a transport error (DNS failure,
      connection refused, client/context timeout — all surfaced to the
      code as a single failed `Do` call) or a response carrying a status
      code, the raw body text, and the result of JSON-parsing that body.
      The JSON grammar itself belongs to Go's encoding/json, so the parse
      result (`Option Json`, `none` = syntactically malformed) is supplied
      alongside the raw text rather than re-implemented; the part of
      json.Unmarshal that the claims exercise — mapping a parsed JSON
      value onto the two-field usage struct — is modelled in full as
      `unmarshalUsage` (object fields processed in order, unknown keys
      ignored, absent keys leave the zero value, null is a no-op,
      non-integer or out-of-range values fail).  Keys are matched to the
      two field tags the way encoding/json does — exact match or
      case-insensitive match — modelled as equality of `foldName` images;
      see the comment on `foldName` for why, for these two tags,
      encoding/json's Unicode simple folding coincides with ASCII-only
      folding, and why the exact-match preference is unobservable here.
      Unmodelled corner case of encoding/json, on which no claim depends:
      mid-stream body read errors.
-/
import Mathlib

/-- JSON values as produced by Go's encoding/json parser.  Numeric
literals keep their source text, because decoding into an int64 field
depends on the literal (`"100"` decodes, `"1e2"` and `"100.0"` do not). -/
inductive Json where
  | null
  | bool (b : Bool)
  | num (lit : String)
  | str (s : String)
  | arr (elems : List Json)
  | obj (fields : List (String × Json))

/-- `type DeepLUsage struct { CharacterCount int64; CharacterLimit int64 }`
(identical in both source files). -/
structure DeepLUsage where
  CharacterCount : Int
  CharacterLimit : Int
  deriving DecidableEq, Repr

/-- A prometheus.Desc as built by prometheus.NewDesc(name, help, nil, nil). -/
structure Desc where
  fqName : String
  help : String
  deriving DecidableEq, Repr

/-- One gauge sample as produced by
`prometheus.MustNewConstMetric(desc, prometheus.GaugeValue, value)`;
the float64 value is modelled as an exact rational. -/
structure MetricSample where
  desc : Desc
  value : ℚ
  deriving DecidableEq, Repr

/-- The outbound HTTP request that fetchUsage builds: method, URL, and
the Authorization header value. -/
structure HTTPRequest where
  method : String
  url : String
  authorization : List Char
  deriving DecidableEq

/-- What the network hands back for one request: a transport-level
failure of `client.Do` (DNS, connection refused, timeout), or a response
with status code, raw body text, and the JSON parse of that body
(`none` when the body is not syntactically valid JSON). -/
inductive TransportOutcome where
  | transportError (msg : String)
  | response (statusCode : Nat) (body : String) (parsed : Option Json)

/-- The error cases fetchUsage can return, with the exact message each
branch formats.  (The `http.NewRequest` error branch is omitted: the URL
is one of two constant well-formed URLs, so that branch is dead.) -/
inductive FetchError where
  | transport (msg : String)
  | badStatus (code : Nat) (body : String)
  | decode (msg : String)
  deriving DecidableEq, Repr

/-- The message text of each fetchUsage error, per the fmt.Errorf format
strings in the source. -/
def FetchError.message : FetchError → String
  | .transport m => "failed to fetch usage: " ++ m
  | .badStatus code body => "API returned status " ++ Nat.repr code ++ ": " ++ body
  | .decode m => "failed to parse response: " ++ m

/-- All-decimal-digit run to its value (the digits of a JSON integer
literal); `none` on an empty or non-digit run. -/
def digitsVal? (cs : List Char) : Option Nat :=
  if cs ≠ [] ∧ cs.all Char.isDigit then
    some (cs.foldl (fun a c => a * 10 + (c.toNat - 48)) 0)
  else none

/-- A JSON numeric literal as an integer, the way strconv.ParseInt reads
it when encoding/json fills an int64 field: an optional leading minus
then decimal digits; any fractional or exponent part makes it fail. -/
def parseIntLit (lit : String) : Option Int :=
  match lit.data with
  | '-' :: rest => (digitsVal? rest).map (fun n => -(n : Int))
  | ds => (digitsVal? ds).map Int.ofNat

/-- Decode a JSON numeric literal into an int64 field: integer literal
within the int64 range, else failure (encoding/json reports
"cannot unmarshal number ... into ... int64" / "out of range"). -/
def unmarshalInt64 (lit : String) : Option Int :=
  (parseIntLit lit).bind fun n =>
    if -(2 ^ 63) ≤ n ∧ n < 2 ^ 63 then some n else none

/-- ASCII-only case fold of one character (lowercase letters mapped to
uppercase, everything else unchanged), matching the ASCII branch of
encoding/json's fold. -/
def foldChar (c : Char) : Char :=
  if 'a' ≤ c ∧ c ≤ 'z' then Char.ofNat (c.toNat - 32) else c

/-- The name folding under which encoding/json matches incoming object
keys to struct field tags.  Go folds with Unicode simple folding
(bytes.EqualFold semantics); the only runes outside an ASCII case pair
that fold onto an ASCII letter are U+212A (Kelvin, onto K) and U+017F
(long s, onto S), and the two tags here, character_count and
character_limit, contain neither K nor S.  Hence a key matches one of
these tags under Go's folding exactly when its ASCII-only fold equals
the tag's, which is what this function computes. -/
def foldName (s : String) : String :=
  String.mk (s.data.map foldChar)

/-- Apply one JSON object entry to the usage struct, as encoding/json
does: a key is matched to a field tag exactly or case-insensitively
(fold-equality; exact matches are preferred by Go, but the two folded
tags are distinct, so the chosen field is the same either way), keys
matching neither tag are ignored, a null value is a no-op, a numeric
value must be an in-range integer literal, anything else is a type
error. -/
def applyField (u : DeepLUsage) (key : String) (v : Json) :
    Except String DeepLUsage :=
  if foldName key = foldName "character_count" then
    match v with
    | Json.null => .ok u
    | Json.num lit =>
        match unmarshalInt64 lit with
        | some n => .ok { u with CharacterCount := n }
        | none => .error ("cannot unmarshal number " ++ lit ++ " into int64 field character_count")
    | _ => .error "cannot unmarshal value into int64 field character_count"
  else if foldName key = foldName "character_limit" then
    match v with
    | Json.null => .ok u
    | Json.num lit =>
        match unmarshalInt64 lit with
        | some n => .ok { u with CharacterLimit := n }
        | none => .error ("cannot unmarshal number " ++ lit ++ " into int64 field character_limit")
    | _ => .error "cannot unmarshal value into int64 field character_limit"
  else .ok u

/-- One step of the field fold: keep the first error but keep processing
later fields (encoding/json records the first error and continues). -/
def unmarshalStep (acc : DeepLUsage × Option String) (kv : String × Json) :
    DeepLUsage × Option String :=
  match applyField acc.1 kv.1 kv.2 with
  | .ok u => (u, acc.2)
  | .error e => (acc.1, acc.2 <|> some e)

/-- `json.Unmarshal(body, &usage)` for the parsed JSON value: a JSON
null leaves the zero struct untouched with no error; an object is
decoded field by field in order (later duplicates overwrite, first
error reported); any other top-level value is a type error. -/
def unmarshalUsage : Json → Except String DeepLUsage
  | Json.null => .ok ⟨0, 0⟩
  | Json.obj fields =>
      match fields.foldl unmarshalStep (⟨0, 0⟩, none) with
      | (_, some e) => .error e
      | (u, none) => .ok u
  | _ => .error "cannot unmarshal value into DeepLUsage"

/-- Status-code and body handling of fetchUsage after `client.Do`
returns (identical in both source files): non-200 → badStatus with code
and raw body; 200 with unparsable body → decode error; 200 with a JSON
value that does not fit the struct → decode error; otherwise the usage. -/
def handleResponse : TransportOutcome → Except FetchError DeepLUsage
  | .transportError m => .error (.transport m)
  | .response statusCode body parsed =>
      if statusCode ≠ 200 then .error (.badStatus statusCode body)
      else
        match parsed with
        | none => .error (.decode "invalid JSON body")
        | some j =>
            match unmarshalUsage j with
            | .error m => .error (.decode m)
            | .ok u => .ok u

/-- `proAPIURL` constant. -/
def proAPIURL : String := "https://api.deepl.com/v2/usage"

/-- `freeAPIURL` constant. -/
def freeAPIURL : String := "https://api-free.deepl.com/v2/usage"

/-- `defaultTimeout = 10 * time.Second`, in seconds. -/
def defaultTimeout : Nat := 10

/-- The http.Client stored in the collector (only its timeout is
observable in the model). -/
structure HTTPClient where
  timeoutSeconds : Nat
  deriving DecidableEq

/-- `type DeepLCollector struct` of the current collector file. -/
structure DeepLCollector where
  apiKey : List Char
  apiURL : String
  client : HTTPClient
  characterCount : Desc
  characterLimit : Desc
  characterUsagePct : Desc

/-- `NewDeepLCollector(apiKey)`: pick the free URL when
`len(apiKey) > 3 && apiKey[len(apiKey)-3:] == ":fx"`, else the pro URL,
and build the collector with its client and the three descriptors. -/
def NewDeepLCollector (apiKey : List Char) : DeepLCollector :=
  let apiURL :=
    if apiKey.length > 3 ∧ apiKey.drop (apiKey.length - 3) = [':', 'f', 'x'] then
      freeAPIURL
    else
      proAPIURL
  { apiKey := apiKey
    apiURL := apiURL
    client := { timeoutSeconds := defaultTimeout }
    characterCount :=
      { fqName := "deepl_character_count"
        help := "Current number of characters translated in the current billing period" }
    characterLimit :=
      { fqName := "deepl_character_limit"
        help := "Maximum number of characters that can be translated in the current billing period" }
    characterUsagePct :=
      { fqName := "deepl_character_usage_percent"
        help := "Percentage of character limit used" } }

/-- `Describe(ch)`: the three descriptors, in source order. -/
def DeepLCollector.Describe (c : DeepLCollector) : List Desc :=
  [c.characterCount, c.characterLimit, c.characterUsagePct]

/-- The request fetchUsage builds: GET to the resolved URL with header
`Authorization: DeepL-Auth-Key <apiKey>` (fmt.Sprintf concatenation of
the literal prefix text and the raw key, no transformation). -/
def DeepLCollector.buildRequest (c : DeepLCollector) : HTTPRequest :=
  { method := "GET"
    url := c.apiURL
    authorization := ("DeepL-Auth-Key ").data ++ c.apiKey }

/-- `fetchUsage(ctx)`: send the built request through the network and
handle the outcome. -/
def DeepLCollector.fetchUsage (c : DeepLCollector)
    (net : HTTPRequest → TransportOutcome) : Except FetchError DeepLUsage :=
  handleResponse (net c.buildRequest)

/-- `Collect(ch)`: on fetch failure log the error and emit nothing; on
success emit count, limit, then the derived percentage (0 unless the
limit is positive).  Result: (samples sent to ch, log lines). -/
def DeepLCollector.Collect (c : DeepLCollector)
    (net : HTTPRequest → TransportOutcome) : List MetricSample × List String :=
  match c.fetchUsage net with
  | .error err => ([], ["Error fetching DeepL usage: " ++ err.message])
  | .ok usage =>
      let usagePercent : ℚ :=
        if usage.CharacterLimit > 0 then
          ((usage.CharacterCount : ℚ) / (usage.CharacterLimit : ℚ)) * 100
        else 0
      ([{ desc := c.characterCount, value := (usage.CharacterCount : ℚ) },
        { desc := c.characterLimit, value := (usage.CharacterLimit : ℚ) },
        { desc := c.characterUsagePct, value := usagePercent }], [])

/-- One invocation of a collector method, with the network outcome the
environment supplies for a Collect call. -/
inductive CollectorCall where
  | describe
  | collect (net : HTTPRequest → TransportOutcome)

/-- What one invocation produces. -/
inductive CallOutput where
  | descs (ds : List Desc)
  | metrics (samples : List MetricSample) (logLines : List String)

/-- Run one method on the collector state.  The Go methods take the
receiver by pointer but never assign to any of its fields, so the
post-state is the unmodified receiver. -/
def DeepLCollector.step (c : DeepLCollector) :
    CollectorCall → DeepLCollector × CallOutput
  | .describe => (c, .descs c.Describe)
  | .collect net =>
      let r := c.Collect net
      (c, .metrics r.1 r.2)

/-- Run a sequence of method invocations, threading the collector state. -/
def DeepLCollector.run (c : DeepLCollector) :
    List CollectorCall → DeepLCollector × List CallOutput
  | [] => (c, [])
  | call :: rest =>
      let s := c.step call
      let r := s.1.run rest
      (r.1, s.2 :: r.2)

namespace MainGo

/-- `type DeepLCollector struct` of the older main.go: same fields minus
the stored http.Client (main.go builds a fresh client inside fetchUsage). -/
structure DeepLCollector where
  apiKey : List Char
  apiURL : String
  characterCount : Desc
  characterLimit : Desc
  characterUsagePct : Desc

/-- main.go's `NewDeepLCollector(apiKey)`: the same suffix check with
the two URLs written as inline literals, and the same three descriptors. -/
def NewDeepLCollector (apiKey : List Char) : DeepLCollector :=
  let apiURL :=
    if apiKey.length > 3 ∧ apiKey.drop (apiKey.length - 3) = [':', 'f', 'x'] then
      "https://api-free.deepl.com/v2/usage"
    else
      "https://api.deepl.com/v2/usage"
  { apiKey := apiKey
    apiURL := apiURL
    characterCount :=
      { fqName := "deepl_character_count"
        help := "Current number of characters translated in the current billing period" }
    characterLimit :=
      { fqName := "deepl_character_limit"
        help := "Maximum number of characters that can be translated in the current billing period" }
    characterUsagePct :=
      { fqName := "deepl_character_usage_percent"
        help := "Percentage of character limit used" } }

/-- main.go's `Describe(ch)`. -/
def DeepLCollector.Describe (c : DeepLCollector) : List Desc :=
  [c.characterCount, c.characterLimit, c.characterUsagePct]

/-- main.go's request: same method, URL and Authorization header. -/
def DeepLCollector.buildRequest (c : DeepLCollector) : HTTPRequest :=
  { method := "GET"
    url := c.apiURL
    authorization := ("DeepL-Auth-Key ").data ++ c.apiKey }

/-- main.go's `fetchUsage()`: builds a fresh `&http.Client{Timeout: 10s}`
per call, then the same send-and-handle logic (status check, body in the
error, JSON decode) as the current file. -/
def DeepLCollector.fetchUsage (c : DeepLCollector)
    (net : HTTPRequest → TransportOutcome) : Except FetchError DeepLUsage :=
  let _client : HTTPClient := { timeoutSeconds := 10 }
  handleResponse (net c.buildRequest)

/-- main.go's `Collect(ch)`: identical control flow to the current file
(no context, the bound comes from the client timeout alone). -/
def DeepLCollector.Collect (c : DeepLCollector)
    (net : HTTPRequest → TransportOutcome) : List MetricSample × List String :=
  match c.fetchUsage net with
  | .error err => ([], ["Error fetching DeepL usage: " ++ err.message])
  | .ok usage =>
      let usagePercent : ℚ :=
        if usage.CharacterLimit > 0 then
          ((usage.CharacterCount : ℚ) / (usage.CharacterLimit : ℚ)) * 100
        else 0
      ([{ desc := c.characterCount, value := (usage.CharacterCount : ℚ) },
        { desc := c.characterLimit, value := (usage.CharacterLimit : ℚ) },
        { desc := c.characterUsagePct, value := usagePercent }], [])

end MainGo

deriving instance DecidableEq for Except

/-- Network fixture: a 200 response with the spec's example body. -/
def exampleNet : HTTPRequest → TransportOutcome := fun _ =>
  .response 200 "\x7b\"character_count\": 1000, \"character_limit\": 500000\x7d"
    (some (Json.obj [("character_count", Json.num "1000"),
                     ("character_limit", Json.num "500000")]))

/-- Network fixture: a 200 response reporting a zero character limit. -/
def zeroLimitNet : HTTPRequest → TransportOutcome := fun _ =>
  .response 200 "\x7b\"character_count\": 5, \"character_limit\": 0\x7d"
    (some (Json.obj [("character_count", Json.num "5"),
                     ("character_limit", Json.num "0")]))

/-- Network fixture: the connection fails. -/
def failNet : HTTPRequest → TransportOutcome := fun _ =>
  .transportError "connection refused"

/-- Network fixture: a 500 response with body "internal error". -/
def serverErrorNet : HTTPRequest → TransportOutcome := fun _ =>
  .response 500 "internal error" none

/-- A list is a suffix of another exactly when dropping everything but
its final `s.length` elements from the longer list recovers it. -/
theorem suffix_iff_drop_eq {α : Type} (s l : List α) :
    s <:+ l ↔ l.drop (l.length - s.length) = s := by
  constructor
  · rintro ⟨t, rfl⟩
    simp [List.length_append, Nat.add_sub_cancel, List.drop_left]
  · intro h
    have H := List.take_append_drop (l.length - s.length) l
    rw [h] at H
    exact ⟨_, H⟩

/-- The condition tested by both NewDeepLCollector variants, restated
through the suffix relation. -/
theorem fxCheck_iff_suffix (apiKey : List Char) :
    (apiKey.length > 3 ∧ apiKey.drop (apiKey.length - 3) = [':', 'f', 'x']) ↔
      ([':', 'f', 'x'] <:+ apiKey ∧ 3 < apiKey.length) := by
  have h3 : ([':', 'f', 'x'] : List Char).length = 3 := rfl
  rw [suffix_iff_drop_eq, h3]
  tauto

/-- **C4.** Resolved endpoint: the free-tier URL exactly for keys that
end in ":fx" and are longer than 3 characters; every other key — in
particular "fx" and ":fx" themselves — resolves to the pro URL. -/
theorem c4_endpoint_suffix_selection (apiKey : List Char) :
    ((NewDeepLCollector apiKey).apiURL = freeAPIURL ↔
      [':', 'f', 'x'] <:+ apiKey ∧ 3 < apiKey.length) ∧
    ((NewDeepLCollector apiKey).apiURL = proAPIURL ↔
      ¬([':', 'f', 'x'] <:+ apiKey ∧ 3 < apiKey.length)) ∧
    (NewDeepLCollector ['f', 'x']).apiURL = proAPIURL ∧
    (NewDeepLCollector [':', 'f', 'x']).apiURL = proAPIURL := by
  have hne : freeAPIURL ≠ proAPIURL := by decide
  refine ⟨?_, ?_, by decide, by decide⟩ <;>
    rw [← fxCheck_iff_suffix] <;>
      by_cases hc : apiKey.length > 3 ∧ apiKey.drop (apiKey.length - 3) = [':', 'f', 'x'] <;>
        simp [NewDeepLCollector, hc, hne, Ne.symm hne]

/-- **C5 counterexample.** The key ":fx" has exactly three characters and
its last three characters are ":fx", yet NewDeepLCollector resolves the
pro URL, not the free-tier URL: the code's check also requires the key
length to exceed 3. -/
theorem c5_last_three_counterexample :
    ([':', 'f', 'x'] : List Char).length = 3 ∧
    ([':', 'f', 'x'] : List Char).drop (([':', 'f', 'x'] : List Char).length - 3) =
      [':', 'f', 'x'] ∧
    (NewDeepLCollector [':', 'f', 'x']).apiURL = proAPIURL ∧
    (NewDeepLCollector [':', 'f', 'x']).apiURL ≠ freeAPIURL := by decide

/-- **C5 amended.** For keys with more than three characters, the
free-tier URL is selected exactly when the last three characters are
":fx"; keys with three or fewer characters (including ":fx" itself)
always get the pro URL. -/
theorem c5_last_three_amended (apiKey : List Char) :
    ((NewDeepLCollector apiKey).apiURL = freeAPIURL ↔
      3 < apiKey.length ∧ apiKey.drop (apiKey.length - 3) = [':', 'f', 'x']) ∧
    (apiKey.length ≤ 3 → (NewDeepLCollector apiKey).apiURL = proAPIURL) := by
  have hne : freeAPIURL ≠ proAPIURL := by decide
  by_cases hc : apiKey.length > 3 ∧ apiKey.drop (apiKey.length - 3) = [':', 'f', 'x'] <;>
    constructor <;>
      simp_all [NewDeepLCollector, hne, hne.symm, Ne.symm hne]

/-- **C7.** The Authorization header fetchUsage sends is the literal
text "DeepL-Auth-Key " followed by the raw api_key, for every key; and
fetchUsage consumes exactly the network's answer to that built request. -/
theorem c7_authorization_header_verbatim (apiKey : List Char)
    (net : HTTPRequest → TransportOutcome) :
    (NewDeepLCollector apiKey).buildRequest.authorization =
      ("DeepL-Auth-Key ").data ++ apiKey ∧
    (NewDeepLCollector apiKey).buildRequest.method = "GET" ∧
    (NewDeepLCollector apiKey).fetchUsage net =
      handleResponse (net (NewDeepLCollector apiKey).buildRequest) :=
  ⟨rfl, rfl, rfl⟩

/-- **C1.** On every successful fetch, the usage_percent sample Collect
emits is 0 when character_limit ≤ 0 and 100·count/limit otherwise —
the exact quotient, with no clamping above 100 and with the zero-limit
case short-circuited before any division. -/
theorem c1_usage_percent_formula (c : DeepLCollector)
    (net : HTTPRequest → TransportOutcome) (u : DeepLUsage)
    (h : c.fetchUsage net = .ok u) :
    (c.Collect net).1.map MetricSample.value =
      [(u.CharacterCount : ℚ), (u.CharacterLimit : ℚ),
       if u.CharacterLimit ≤ 0 then 0
       else 100 * (u.CharacterCount : ℚ) / (u.CharacterLimit : ℚ)] := by
  have hpct :
      (if u.CharacterLimit ≤ 0 then (0 : ℚ)
        else 100 * (u.CharacterCount : ℚ) / (u.CharacterLimit : ℚ)) =
      (if u.CharacterLimit > 0 then
          ((u.CharacterCount : ℚ) / (u.CharacterLimit : ℚ)) * 100
        else 0) := by
    by_cases hl : u.CharacterLimit > 0
    · rw [if_pos hl, if_neg (by omega)]
      ring
    · rw [if_neg hl, if_pos (by omega)]
  rw [hpct]
  simp only [DeepLCollector.Collect, h, List.map_cons, List.map_nil]

/-- **C1 witness.** A 200 response reporting count 5 and limit 0:
the fetch succeeds and the emitted percentage is exactly 0. -/
theorem c1_usage_percent_formula_witness :
    (NewDeepLCollector ['k']).fetchUsage zeroLimitNet = .ok ⟨5, 0⟩ ∧
    ((NewDeepLCollector ['k']).Collect zeroLimitNet).1.map MetricSample.value =
      [5, 0, 0] :=
  ⟨by decide,
   (c1_usage_percent_formula (NewDeepLCollector ['k']) zeroLimitNet ⟨5, 0⟩
      (by decide)).trans (by norm_num)⟩

/-- **C2.** Whenever fetchUsage fails, Collect emits no samples at all
and only logs the error (its return carries no error channel, so
nothing is propagated and nothing faults). -/
theorem c2_collect_swallows_fetch_error (c : DeepLCollector)
    (net : HTTPRequest → TransportOutcome) (e : FetchError)
    (h : c.fetchUsage net = .error e) :
    c.Collect net = ([], ["Error fetching DeepL usage: " ++ e.message]) := by
  simp only [DeepLCollector.Collect, h]

/-- **C2 witness.** A refused connection: zero samples, one log line. -/
theorem c2_collect_swallows_fetch_error_witness :
    (NewDeepLCollector ['k']).fetchUsage failNet =
      .error (.transport "connection refused") ∧
    (NewDeepLCollector ['k']).Collect failNet =
      ([], ["Error fetching DeepL usage: failed to fetch usage: connection refused"]) :=
  ⟨by decide,
   (c2_collect_swallows_fetch_error (NewDeepLCollector ['k']) failNet
      (.transport "connection refused") (by decide)).trans (by decide)⟩

/-- **C3.** Every successful Collect run emits exactly three samples,
in the order count (raw), limit (raw), usage percentage (derived), and
nothing is logged. -/
theorem c3_collect_three_samples_in_order (c : DeepLCollector)
    (net : HTTPRequest → TransportOutcome) (u : DeepLUsage)
    (h : c.fetchUsage net = .ok u) :
    c.Collect net =
      ([{ desc := c.characterCount, value := (u.CharacterCount : ℚ) },
        { desc := c.characterLimit, value := (u.CharacterLimit : ℚ) },
        { desc := c.characterUsagePct,
          value := if u.CharacterLimit > 0 then
              ((u.CharacterCount : ℚ) / (u.CharacterLimit : ℚ)) * 100
            else 0 }], []) := by
  simp only [DeepLCollector.Collect, h]

/-- **C3 witness.** The spec's example: a 200 response with body
character_count 1000 and character_limit 500000 yields exactly the three
samples (deepl_character_count, 1000), (deepl_character_limit, 500000),
(deepl_character_usage_percent, 0.2), in that order. -/
theorem c3_collect_three_samples_in_order_witness :
    (NewDeepLCollector "test-key".data).fetchUsage exampleNet =
      .ok ⟨1000, 500000⟩ ∧
    ((NewDeepLCollector "test-key".data).Collect exampleNet).1.map
        (fun s => (s.desc.fqName, s.value)) =
      [("deepl_character_count", 1000),
       ("deepl_character_limit", 500000),
       ("deepl_character_usage_percent", 1/5)] ∧
    ((NewDeepLCollector "test-key".data).Collect exampleNet).2 = [] := by
  have h := c3_collect_three_samples_in_order (NewDeepLCollector "test-key".data)
    exampleNet ⟨1000, 500000⟩ (by decide)
  refine ⟨by decide, ?_, by rw [h]⟩
  rw [h]
  norm_num [NewDeepLCollector]

/-- **C6.** For every response whose status is not 200, fetchUsage fails
with the badStatus error for that code and raw body, whose message is
exactly "API returned status <code>: <body>". -/
theorem c6_non_200_status_error (c : DeepLCollector)
    (net : HTTPRequest → TransportOutcome) (code : Nat) (body : String)
    (parsed : Option Json)
    (hnet : net c.buildRequest = .response code body parsed)
    (hcode : code ≠ 200) :
    c.fetchUsage net = .error (.badStatus code body) ∧
    (FetchError.badStatus code body).message =
      "API returned status " ++ Nat.repr code ++ ": " ++ body := by
  refine ⟨?_, rfl⟩
  simp only [DeepLCollector.fetchUsage, hnet, handleResponse, if_pos hcode]

/-- **C6 witness.** A 500 response with body "internal error": the
error message is "API returned status 500: internal error", which
carries the numeric code and the raw body. -/
theorem c6_non_200_status_error_witness :
    (NewDeepLCollector ['k']).fetchUsage serverErrorNet =
      .error (.badStatus 500 "internal error") ∧
    (FetchError.badStatus 500 "internal error").message =
      "API returned status 500: internal error" ∧
    (FetchError.badStatus 500 "internal error").message =
      "API returned status 500" ++ ": " ++ "internal error" := by
  have h := c6_non_200_status_error (NewDeepLCollector ['k']) serverErrorNet
    500 "internal error" none rfl (by decide)
  exact ⟨h.1, h.2.trans (by decide), h.2.trans (by decide)⟩

/-- One method invocation leaves every collector field unchanged: the Go
methods read the receiver but never assign to it. -/
theorem DeepLCollector.step_fst (c : DeepLCollector) (call : CollectorCall) :
    (c.step call).1 = c := by
  cases call <;> rfl

/-- **C9.** Across any sequence of Describe/Collect invocations (Collect
subsuming its fetchUsage call), the collector state stays exactly the
constructed value, and each invocation's output is what that same
invocation produces on the freshly constructed collector alone — no data
flows from one invocation to a later one. -/
theorem c9_collector_immutable_and_stateless (c : DeepLCollector)
    (calls : List CollectorCall) :
    (c.run calls).1 = c ∧
    (c.run calls).2 = calls.map (fun call => (c.step call).2) := by
  induction calls with
  | nil => exact ⟨rfl, rfl⟩
  | cons call rest ih =>
      simp [DeepLCollector.run, DeepLCollector.step_fst, ih.1, ih.2]

/-- **C10.** The older collector in main.go and the current collector
are behaviorally equivalent at the public interface: same resolved URL,
same built request (method, URL, Authorization header), the same
fetchUsage result on every network outcome (hence identical error
classification), the same ordered samples and log lines from Collect,
and the same descriptors from Describe. -/
theorem c10_old_new_equivalence (apiKey : List Char)
    (net : HTTPRequest → TransportOutcome) :
    (MainGo.NewDeepLCollector apiKey).apiURL = (NewDeepLCollector apiKey).apiURL ∧
    (MainGo.NewDeepLCollector apiKey).buildRequest =
      (NewDeepLCollector apiKey).buildRequest ∧
    (MainGo.NewDeepLCollector apiKey).fetchUsage net =
      (NewDeepLCollector apiKey).fetchUsage net ∧
    (MainGo.NewDeepLCollector apiKey).Collect net =
      (NewDeepLCollector apiKey).Collect net ∧
    (MainGo.NewDeepLCollector apiKey).Describe =
      (NewDeepLCollector apiKey).Describe :=
  ⟨rfl, rfl, rfl, rfl, rfl⟩

/-- Network fixture: a 200 response whose body is a perfectly valid JSON
object, but whose character_count value is a string. -/
def badFieldNet : HTTPRequest → TransportOutcome := fun _ =>
  .response 200 "\x7b\"character_count\": \"x\"\x7d"
    (some (Json.obj [("character_count", Json.str "x")]))

/-- Network fixture: a 200 response with a valid JSON object carrying
neither of the two expected keys. -/
def sparseNet : HTTPRequest → TransportOutcome := fun _ =>
  .response 200 "\x7b\"foo\": \"bar\"\x7d"
    (some (Json.obj [("foo", Json.str "bar")]))

/-- Characterization of one object entry that decoding accepts for the
usage struct: a key matching neither tag (even case-insensitively), a
null value, or an in-range integer literal. -/
def fieldAccepted (kv : String × Json) : Prop :=
  (foldName kv.1 ≠ foldName "character_count" ∧
   foldName kv.1 ≠ foldName "character_limit") ∨
  kv.2 = Json.null ∨
  ∃ lit n, kv.2 = Json.num lit ∧ unmarshalInt64 lit = some n

/-- Characterization of the parsed bodies that decode without error:
JSON null, or an object all of whose entries are accepted. -/
def bodyAccepted : Json → Prop
  | Json.null => True
  | Json.obj fields => ∀ kv ∈ fields, fieldAccepted kv
  | _ => False

/-- The two folded field tags are distinct, so a key picks at most one
field. -/
theorem foldName_tags_ne :
    foldName "character_count" ≠ foldName "character_limit" := by decide

/-- applyField succeeds exactly on accepted entries, regardless of the
accumulated struct. -/
theorem applyField_ok_iff (u : DeepLUsage) (kv : String × Json) :
    (∃ u', applyField u kv.1 kv.2 = .ok u') ↔ fieldAccepted kv := by
  obtain ⟨k, v⟩ := kv
  have hne := foldName_tags_ne
  have hne' := Ne.symm foldName_tags_ne
  by_cases h1 : foldName k = foldName "character_count"
  · cases v with
    | null => simp [applyField, fieldAccepted, h1, hne, hne']
    | num lit =>
        cases hu : unmarshalInt64 lit <;>
          simp [applyField, fieldAccepted, h1, hne, hne', hu]
    | _ => simp [applyField, fieldAccepted, h1, hne, hne']
  · by_cases h2 : foldName k = foldName "character_limit"
    · cases v with
      | null => simp [applyField, fieldAccepted, h1, h2, hne, hne']
      | num lit =>
          cases hu : unmarshalInt64 lit <;>
            simp [applyField, fieldAccepted, h1, h2, hne, hne', hu]
      | _ => simp [applyField, fieldAccepted, h1, h2, hne, hne']
    · simp [applyField, fieldAccepted, h1, h2]

/-- Once the fold has recorded an error it never clears it. -/
theorem foldl_unmarshalStep_error (fields : List (String × Json))
    (u : DeepLUsage) (e : String) :
    (fields.foldl unmarshalStep (u, some e)).2 = some e := by
  induction fields generalizing u with
  | nil => rfl
  | cons kv rest ih =>
      simp only [List.foldl]
      cases h : applyField u kv.1 kv.2 <;>
        simp [unmarshalStep, h, Option.orElse] <;>
          exact ih _

/-- The fold finishes without error exactly when every entry is
accepted. -/
theorem foldl_unmarshalStep_none_iff (fields : List (String × Json))
    (u : DeepLUsage) :
    (fields.foldl unmarshalStep (u, none)).2 = none ↔
      ∀ kv ∈ fields, fieldAccepted kv := by
  induction fields generalizing u with
  | nil => simp
  | cons kv rest ih =>
      simp only [List.foldl, List.mem_cons]
      cases h : applyField u kv.1 kv.2 with
      | ok u' =>
          have hacc : fieldAccepted kv := (applyField_ok_iff u kv).1 ⟨u', h⟩
          simp [unmarshalStep, h, ih u', hacc]
      | error e =>
          have hnacc : ¬ fieldAccepted kv := by
            intro hacc
            obtain ⟨u', hu'⟩ := (applyField_ok_iff u kv).2 hacc
            rw [h] at hu'
            cases hu'
          simp [unmarshalStep, h, foldl_unmarshalStep_error, hnacc]

/-- A successful applyField on a key other than character_count leaves
CharacterCount untouched. -/
theorem applyField_count_eq (u : DeepLUsage) (k : String) (v : Json)
    (u' : DeepLUsage) (hk : foldName k ≠ foldName "character_count")
    (h : applyField u k v = .ok u') :
    u'.CharacterCount = u.CharacterCount := by
  unfold applyField at h
  rw [if_neg hk] at h
  by_cases h2 : foldName k = foldName "character_limit"
  · rw [if_pos h2] at h
    cases v with
    | null => injection h with h; rw [← h]
    | num lit =>
        have h' :
            (match unmarshalInt64 lit with
              | some n => Except.ok { u with CharacterLimit := n }
              | none =>
                  Except.error
                    ("cannot unmarshal number " ++ lit ++ " into int64 field character_limit")) =
              Except.ok u' := h
        cases hu : unmarshalInt64 lit <;> rw [hu] at h'
        · exact absurd h' (by simp)
        · injection h' with h'; rw [← h']
    | bool b => exact absurd h (by simp)
    | str s => exact absurd h (by simp)
    | arr xs => exact absurd h (by simp)
    | obj fs => exact absurd h (by simp)
  · rw [if_neg h2] at h
    injection h with h
    rw [← h]

/-- A successful applyField on a key other than character_limit leaves
CharacterLimit untouched. -/
theorem applyField_limit_eq (u : DeepLUsage) (k : String) (v : Json)
    (u' : DeepLUsage) (hk : foldName k ≠ foldName "character_limit")
    (h : applyField u k v = .ok u') :
    u'.CharacterLimit = u.CharacterLimit := by
  unfold applyField at h
  by_cases h1 : foldName k = foldName "character_count"
  · rw [if_pos h1] at h
    cases v with
    | null => injection h with h; rw [← h]
    | num lit =>
        have h' :
            (match unmarshalInt64 lit with
              | some n => Except.ok { u with CharacterCount := n }
              | none =>
                  Except.error
                    ("cannot unmarshal number " ++ lit ++ " into int64 field character_count")) =
              Except.ok u' := h
        cases hu : unmarshalInt64 lit <;> rw [hu] at h'
        · exact absurd h' (by simp)
        · injection h' with h'; rw [← h']
    | bool b => exact absurd h (by simp)
    | str s => exact absurd h (by simp)
    | arr xs => exact absurd h (by simp)
    | obj fs => exact absurd h (by simp)
  · rw [if_neg h1, if_neg hk] at h
    injection h with h
    rw [← h]

/-- If no entry in the field list names character_count, the fold never
changes CharacterCount. -/
theorem foldl_count_eq (fields : List (String × Json)) (u : DeepLUsage)
    (st : Option String)
    (hab : ∀ kv ∈ fields, foldName kv.1 ≠ foldName "character_count") :
    ((fields.foldl unmarshalStep (u, st)).1).CharacterCount =
      u.CharacterCount := by
  induction fields generalizing u st with
  | nil => rfl
  | cons kv rest ih =>
      simp only [List.foldl]
      have htail : ∀ kv' ∈ rest, foldName kv'.1 ≠ foldName "character_count" :=
        fun kv' hm =>
        hab kv' (List.mem_cons_of_mem _ hm)
      cases h : applyField u kv.1 kv.2 with
      | ok u' =>
          have hpres := applyField_count_eq u kv.1 kv.2 u'
            (hab kv (List.mem_cons_self _ _)) h
          simp only [unmarshalStep, h]
          rw [ih u' st htail, hpres]
      | error e =>
          simp only [unmarshalStep, h]
          exact ih u _ htail

/-- If no entry in the field list names character_limit, the fold never
changes CharacterLimit. -/
theorem foldl_limit_eq (fields : List (String × Json)) (u : DeepLUsage)
    (st : Option String)
    (hab : ∀ kv ∈ fields, foldName kv.1 ≠ foldName "character_limit") :
    ((fields.foldl unmarshalStep (u, st)).1).CharacterLimit =
      u.CharacterLimit := by
  induction fields generalizing u st with
  | nil => rfl
  | cons kv rest ih =>
      simp only [List.foldl]
      have htail : ∀ kv' ∈ rest, foldName kv'.1 ≠ foldName "character_limit" :=
        fun kv' hm =>
        hab kv' (List.mem_cons_of_mem _ hm)
      cases h : applyField u kv.1 kv.2 with
      | ok u' =>
          have hpres := applyField_limit_eq u kv.1 kv.2 u'
            (hab kv (List.mem_cons_self _ _)) h
          simp only [unmarshalStep, h]
          rw [ih u' st htail, hpres]
      | error e =>
          simp only [unmarshalStep, h]
          exact ih u _ htail

/-- **C8 counterexample.** The 200 body consisting of the valid JSON
object with the single entry character_count: "x" makes fetchUsage fail
with a decode error, although the body is valid JSON for an object —
the claimed "error iff not valid JSON for an object" is false: a
type-mismatched field also fails. -/
theorem c8_decode_iff_counterexample :
    (NewDeepLCollector ['k']).fetchUsage badFieldNet =
      .error (.decode "cannot unmarshal value into int64 field character_count") ∧
    badFieldNet (NewDeepLCollector ['k']).buildRequest =
      .response 200 "\x7b\"character_count\": \"x\"\x7d"
        (some (Json.obj [("character_count", Json.str "x")])) :=
  ⟨by decide, rfl⟩

/-- **C8 amended.** For 200 responses: a syntactically malformed body
fails with a decode error; a parsed body decodes exactly when it is
JSON null or a JSON object each of whose character_count and
character_limit entries is null or an in-range integer literal (other
keys are ignored — permissive, no strict schema validation); and on a
successfully decoded object body an absent character_count or
character_limit key leaves that field equal to zero. -/
theorem c8_decode_permissive_amended (c : DeepLCollector)
    (net : HTTPRequest → TransportOutcome) (body : String) :
    (net c.buildRequest = .response 200 body none →
      c.fetchUsage net = .error (.decode "invalid JSON body")) ∧
    (∀ j, net c.buildRequest = .response 200 body (some j) →
      ((∃ u, c.fetchUsage net = .ok u) ↔ bodyAccepted j)) ∧
    (∀ fields u, net c.buildRequest = .response 200 body (some (Json.obj fields)) →
      c.fetchUsage net = .ok u →
      ((∀ kv ∈ fields, foldName kv.1 ≠ foldName "character_count") →
        u.CharacterCount = 0) ∧
      ((∀ kv ∈ fields, foldName kv.1 ≠ foldName "character_limit") →
        u.CharacterLimit = 0)) := by
  refine ⟨?_, ?_, ?_⟩
  · intro hnet
    simp [DeepLCollector.fetchUsage, hnet, handleResponse]
  · intro j hnet
    simp only [DeepLCollector.fetchUsage, hnet, handleResponse, ne_eq, if_neg,
      not_true_eq_false, reduceIte]
    cases j with
    | null => simp [unmarshalUsage, bodyAccepted]
    | bool b => simp [unmarshalUsage, bodyAccepted]
    | num lit => simp [unmarshalUsage, bodyAccepted]
    | str s => simp [unmarshalUsage, bodyAccepted]
    | arr xs => simp [unmarshalUsage, bodyAccepted]
    | obj fields =>
        rcases hful : fields.foldl unmarshalStep (⟨0, 0⟩, none) with ⟨u1, st⟩
        cases st with
        | none =>
            have hall : ∀ kv ∈ fields, fieldAccepted kv :=
              (foldl_unmarshalStep_none_iff fields ⟨0, 0⟩).1 (by rw [hful])
            simp [unmarshalUsage, hful, bodyAccepted]
            exact fun a b hm => hall (a, b) hm
        | some e =>
            have hn : ¬ ∀ kv ∈ fields, fieldAccepted kv := by
              intro hall
              have hnone := (foldl_unmarshalStep_none_iff fields ⟨0, 0⟩).2 hall
              rw [hful] at hnone
              cases hnone
            push_neg at hn
            obtain ⟨⟨a, b⟩, hm, hnp⟩ := hn
            simp [unmarshalUsage, hful, bodyAccepted]
            exact ⟨a, b, hm, hnp⟩
  · intro fields u hnet hfetch
    simp only [DeepLCollector.fetchUsage, hnet, handleResponse, ne_eq,
      not_true_eq_false, reduceIte, unmarshalUsage] at hfetch
    rcases hful : fields.foldl unmarshalStep (⟨0, 0⟩, none) with ⟨u1, st⟩
    rw [hful] at hfetch
    cases st with
    | some e => simp at hfetch
    | none =>
        simp only [] at hfetch
        have hu1 : u1 = u := by
          injection hfetch
        subst hu1
        constructor
        · intro hab
          have hc := foldl_count_eq fields ⟨0, 0⟩ none hab
          rw [hful] at hc
          exact hc
        · intro hab
          have hl := foldl_limit_eq fields ⟨0, 0⟩ none hab
          rw [hful] at hl
          exact hl

/-- Network fixture: a 200 response whose object carries the count
under a case-variant key, as encoding/json still accepts. -/
def mixedCaseNet : HTTPRequest → TransportOutcome := fun _ =>
  .response 200 "\x7b\"Character_Count\": 7\x7d"
    (some (Json.obj [("Character_Count", Json.num "7")]))

/-- Network fixture: a 200 response whose object has a string value
under an upper-case variant of character_limit, which encoding/json
still routes to the int64 field and rejects. -/
def upperBadNet : HTTPRequest → TransportOutcome := fun _ =>
  .response 200 "\x7b\"CHARACTER_LIMIT\": \"x\"\x7d"
    (some (Json.obj [("CHARACTER_LIMIT", Json.str "x")]))

/-- **C8 amended witness.** A valid JSON object with no key matching
either field, even case-insensitively, decodes to count 0, limit 0;
a case-variant key still decodes into its field ("Character_Count": 7
gives count 7) and a case-variant key with a non-integer value still
fails, matching encoding/json's case-insensitive field matching. -/
theorem c8_decode_permissive_amended_witness :
    (NewDeepLCollector ['k']).fetchUsage sparseNet = .ok ⟨0, 0⟩ ∧
    ((⟨0, 0⟩ : DeepLUsage).CharacterCount = 0 ∧
     (⟨0, 0⟩ : DeepLUsage).CharacterLimit = 0) ∧
    (NewDeepLCollector ['k']).fetchUsage mixedCaseNet = .ok ⟨7, 0⟩ ∧
    (NewDeepLCollector ['k']).fetchUsage upperBadNet =
      .error (.decode "cannot unmarshal value into int64 field character_limit") := by
  have h := (c8_decode_permissive_amended (NewDeepLCollector ['k']) sparseNet
      "\x7b\"foo\": \"bar\"\x7d").2.2 [("foo", Json.str "bar")] ⟨0, 0⟩ rfl (by decide)
  exact ⟨by decide, ⟨h.1 (by decide), h.2 (by decide)⟩, by decide, by decide⟩
